import Mathlib

/-!
Verification of the seasonal statistics aggregation engine of the
world-of-warcraft-api repository (`tools/guildFetcher/seasonalStats.mjs`).

Modelling conventions:
* JS numbers carrying ratings, durations and rates are modelled as `ℚ`;
  counters and keystone levels as `ℕ`.
* JS object maps (string-keyed, insertion-ordered) are modelled as
  association lists `List (String × V)` updated by `upsert`, which inserts
  at the end on first access and updates in place afterwards.
* JS `Set` values are modelled as duplicate-free lists in insertion order
  (`setAdd` appends only when absent), so `size` is `length`.
* Optional chaining with a `|| default` fallback is modelled by explicit
  extraction from `Option`, where JS falsiness (`0`, `""`) also falls
  through to the default.
* A JS object field that a code path never assigns (the early-return
  object of `processCharacterSeasonalStats` omits `completionRate`) is
  modelled with an `Option` field that is `none` on that path.
* `new Date()` is modelled by an explicit `now : ℕ` argument.
-/

namespace SeasonalStats

/-- JS `x || d` for an optional number: `0` is falsy and falls to `d`. -/
def jsOrQ (a : Option ℚ) (d : ℚ) : ℚ :=
  match a with
  | some x => if x = 0 then d else x
  | none => d

/-- JS `x || d` for an optional string: `""` is falsy and falls to `d`. -/
def jsOrS (a : Option String) (d : String) : String :=
  match a with
  | some s => if s = "" then d else s
  | none => d

/-- Lookup in an insertion-ordered association list (JS `m[k]` read; keys
are unique by construction, so the first match is the binding). -/
def getVal {V : Type} : List (String × V) → String → Option V
  | [], _ => none
  | e :: t, k => if e.1 = k then some e.2 else getVal t k

/-- JS map update pattern `if (!m[k]) m[k] = init; …mutate m[k]…`:
the net effect of one visit is `m[k] := f (m[k] or init)`, inserting at the
end on first access (JS string keys keep insertion order). -/
def upsert {V : Type} (k : String) (init : V) (f : V → V) :
    List (String × V) → List (String × V)
  | [] => [(k, f init)]
  | (k', v) :: rest =>
    if k' = k then (k, f v) :: rest else (k', v) :: upsert k init f rest

/-- JS `Set.add`: append when absent, keep insertion order. -/
def setAdd (s : List String) (x : String) : List String :=
  if x ∈ s then s else s ++ [x]

/-- One affix of a run (`run.keystone_affixes[i]`); `name` may be absent. -/
structure RunAffix where
  name : Option String
deriving DecidableEq

/-- One party member of a run (`run.members[i]`), with the three optionally
chained fields the source reads. -/
structure RunMember where
  specName : Option String
  charName : Option String
  realmSlug : Option String
deriving DecidableEq

/-- One best-run record (`currentSeason.best_runs[i]`). -/
structure Run where
  keystone_level : ℕ
  is_completed_within_time : Bool
  rating : Option ℚ
  duration : Option ℚ
  dungeonName : Option String
  keystone_affixes : Option (List RunAffix)
  members : Option (List RunMember)
deriving DecidableEq

/-- `character.currentSeason`; `best_runs = none` models the field being
absent or not an array (`!currentSeason.best_runs || !Array.isArray(...)`). -/
structure SeasonData where
  best_runs : Option (List Run)
deriving DecidableEq

/-- A character record, restricted to the fields the aggregator reads. -/
structure Character where
  name : String
  server : String
  metaSpec : Option String
  metaClass : Option String
  mythicPlusScore : Option ℚ
  rawMplusRating : Option ℚ
  currentSeason : Option SeasonData
deriving DecidableEq

/-- `character.processedStats?.mythicPlusScore ||
character.raw_mplus?.current_mythic_rating?.rating || 0` (lines 239 and 323). -/
def Character.currentRating (c : Character) : ℚ :=
  jsOrQ c.mythicPlusScore (jsOrQ c.rawMplusRating 0)

/-- Per-dungeon entry of a character's `dungeonStats`. -/
structure DungeonStat where
  totalRuns : ℕ
  timedRuns : ℕ
  highestKey : ℕ
  averageRating : ℚ
  totalRating : ℚ
deriving DecidableEq

/-- Entry shape shared by `affixStats` and `roleStats`. -/
structure GroupStat where
  totalRuns : ℕ
  timedRuns : ℕ
  averageRating : ℚ
  totalRating : ℚ
deriving DecidableEq

/-- Entry of `memberPlayCounts` / `topPlayedMembers`. -/
structure PlayedMember where
  name : String
  server : String
  spec : String
  count : ℕ
deriving DecidableEq

/-- Result of `processCharacterSeasonalStats`. `completionRate` is `none`
exactly when the early-return object (lines 20-31), which omits the field,
is produced. -/
structure CharacterStats where
  highestTimedKey : ℕ
  highestKeyOverall : ℕ
  totalRuns : ℕ
  completedRuns : ℕ
  averageRating : ℚ
  topPlayedMembers : List PlayedMember
  dungeonStats : List (String × DungeonStat)
  affixStats : List (String × GroupStat)
  roleStats : List (String × GroupStat)
  totalPlaytime : ℚ
  completionRate : Option ℚ
deriving DecidableEq

/-- The early-return object of lines 20-31: all fields zero or empty, and
no `completionRate` field at all. -/
def emptySeasonalStats : CharacterStats where
  highestTimedKey := 0
  highestKeyOverall := 0
  totalRuns := 0
  completedRuns := 0
  averageRating := 0
  topPlayedMembers := []
  dungeonStats := []
  affixStats := []
  roleStats := []
  totalPlaytime := 0
  completionRate := none

/-- Mutable loop state of the `bestRuns.forEach` in
`processCharacterSeasonalStats` (lines 35-45). -/
structure CharAcc where
  highestTimedKey : ℕ
  highestKeyOverall : ℕ
  completedRuns : ℕ
  totalRating : ℚ
  totalPlaytime : ℚ
  dungeonStats : List (String × DungeonStat)
  affixStats : List (String × GroupStat)
  roleStats : List (String × PlayedMember) × List (String × GroupStat)
deriving DecidableEq

/-- Body of the `run.members.forEach(member => …)` loop (lines 111-142):
updates the `memberPlayCounts` (first component) and `roleStats` (second
component) maps for one party member. -/
def memberStep (rating : ℚ) (isTimed : Bool)
    (st : List (String × PlayedMember) × List (String × GroupStat))
    (member : RunMember) :
    List (String × PlayedMember) × List (String × GroupStat) :=
  let spec := jsOrS member.specName "Unknown"
  let memberName := jsOrS member.charName "Unknown"
  let memberServer := jsOrS member.realmSlug "Unknown"
  let memberKey := memberName ++ "-" ++ memberServer
  let counts :=
    upsert memberKey ⟨memberName, memberServer, spec, 0⟩
      (fun p => { p with count := p.count + 1 }) st.1
  let roles :=
    upsert spec ⟨0, 0, 0, 0⟩
      (fun s =>
        { s with
          totalRuns := s.totalRuns + 1
          totalRating := s.totalRating + rating
          timedRuns := if isTimed then s.timedRuns + 1 else s.timedRuns })
      st.2
  (counts, roles)

/-- Body of the `bestRuns.forEach(run => …)` loop (lines 47-143). The
member loop updates `memberPlayCounts` and `roleStats` together, so they
are threaded as one pair (`roleStats.1` is `memberPlayCounts`). -/
def processRun (acc : CharAcc) (run : Run) : CharAcc :=
  let keyLevel := run.keystone_level
  let isTimed := run.is_completed_within_time
  let rating := jsOrQ run.rating 0
  let duration := jsOrQ run.duration 0
  let dungeon := jsOrS run.dungeonName "Unknown"
  let affixes := run.keystone_affixes.getD []
  let members := run.members.getD []
  let highestKeyOverall :=
    if keyLevel > acc.highestKeyOverall then keyLevel else acc.highestKeyOverall
  let highestTimedKey :=
    if isTimed ∧ keyLevel > acc.highestTimedKey then keyLevel else acc.highestTimedKey
  let completedRuns := if isTimed then acc.completedRuns + 1 else acc.completedRuns
  let dungeonStats :=
    upsert dungeon ⟨0, 0, 0, 0, 0⟩
      (fun s =>
        { s with
          totalRuns := s.totalRuns + 1
          totalRating := s.totalRating + rating
          timedRuns := if isTimed then s.timedRuns + 1 else s.timedRuns
          highestKey := if keyLevel > s.highestKey then keyLevel else s.highestKey })
      acc.dungeonStats
  let affixStats :=
    affixes.foldl
      (fun m affix =>
        upsert (jsOrS affix.name "Unknown") ⟨0, 0, 0, 0⟩
          (fun s =>
            { s with
              totalRuns := s.totalRuns + 1
              totalRating := s.totalRating + rating
              timedRuns := if isTimed then s.timedRuns + 1 else s.timedRuns })
          m)
      acc.affixStats
  let roleStats := members.foldl (memberStep rating isTimed) acc.roleStats
  { highestTimedKey := highestTimedKey
    highestKeyOverall := highestKeyOverall
    completedRuns := completedRuns
    totalRating := acc.totalRating + rating
    totalPlaytime := acc.totalPlaytime + duration
    dungeonStats := dungeonStats
    affixStats := affixStats
    roleStats := roleStats }

/-- Descending play-count order used by `.sort((a, b) => b.count - a.count)`
(line 168). -/
def descByCount (a b : PlayedMember) : Prop := b.count ≤ a.count

instance : DecidableRel descByCount := fun a b =>
  inferInstanceAs (Decidable (b.count ≤ a.count))

instance : IsTotal PlayedMember descByCount :=
  ⟨fun a b => Nat.le_total b.count a.count⟩

instance : IsTrans PlayedMember descByCount :=
  ⟨fun _ _ _ h1 h2 => Nat.le_trans h2 h1⟩

/-- `processCharacterSeasonalStats(character)` (lines 16-184). -/
def processCharacterSeasonalStats (character : Character) : CharacterStats :=
  match character.currentSeason with
  | none => emptySeasonalStats
  | some currentSeason =>
    match currentSeason.best_runs with
    | none => emptySeasonalStats
    | some bestRuns =>
      let acc := bestRuns.foldl processRun ⟨0, 0, 0, 0, 0, [], [], ([], [])⟩
      let totalRuns := bestRuns.length
      let averageRating :=
        if totalRuns > 0 then acc.totalRating / (totalRuns : ℚ) else 0
      let dungeonStats :=
        acc.dungeonStats.map fun e =>
          (e.1,
            { e.2 with
              averageRating :=
                if e.2.totalRuns > 0 then e.2.totalRating / (e.2.totalRuns : ℚ) else 0 })
      let affixStats :=
        acc.affixStats.map fun e =>
          (e.1,
            { e.2 with
              averageRating :=
                if e.2.totalRuns > 0 then e.2.totalRating / (e.2.totalRuns : ℚ) else 0 })
      let roleStats :=
        acc.roleStats.2.map fun e =>
          (e.1,
            { e.2 with
              averageRating :=
                if e.2.totalRuns > 0 then e.2.totalRating / (e.2.totalRuns : ℚ) else 0 })
      let topPlayedMembers :=
        (List.insertionSort descByCount (acc.roleStats.1.map fun e => e.2)).take 10
      { highestTimedKey := acc.highestTimedKey
        highestKeyOverall := acc.highestKeyOverall
        totalRuns := totalRuns
        completedRuns := acc.completedRuns
        averageRating := averageRating
        topPlayedMembers := topPlayedMembers
        dungeonStats := dungeonStats
        affixStats := affixStats
        roleStats := roleStats
        totalPlaytime := acc.totalPlaytime
        completionRate :=
          some (if totalRuns > 0 then ((acc.completedRuns : ℚ) / (totalRuns : ℚ)) * 100 else 0) }

/-- `CURRENT_MPLUS_SEASON` from `app.config.js` (line 96). -/
def CURRENT_MPLUS_SEASON : ℕ := 15

/-- Entry pushed onto `characterStats` (lines 234-245), later `topPlayers`. -/
structure TopPlayer where
  name : String
  server : String
  spec : String
  className : String
  rating : ℚ
  highestTimedKey : ℕ
  highestKeyOverall : ℕ
  totalRuns : ℕ
  completionRate : ℚ
  averageRating : ℚ
deriving DecidableEq

/-- Guild per-dungeon accumulator (lines 250-256); `players` models a `Set`. -/
structure DungeonAcc where
  totalRuns : ℕ
  timedRuns : ℕ
  highestKey : ℕ
  totalRating : ℚ
  players : List String
deriving DecidableEq

/-- Guild per-affix / per-role accumulator (lines 273-277, 289-293). -/
structure GroupAcc where
  totalRuns : ℕ
  timedRuns : ℕ
  totalRating : ℚ
deriving DecidableEq

/-- Guild member-network accumulator (lines 306-312); `playedWith` models a
`Set`. -/
structure MemberNetAcc where
  name : String
  server : String
  spec : String
  totalRuns : ℕ
  playedWith : List String
deriving DecidableEq

/-- Finalized `dungeonLeaderboard` entry (lines 333-340). -/
structure DungeonBoardEntry where
  totalRuns : ℕ
  timedRuns : ℕ
  highestKey : ℕ
  averageRating : ℚ
  completionRate : ℚ
  playerCount : ℕ
deriving DecidableEq

/-- Finalized guild `affixStats` / `roleStats` entry (lines 346-351, 357-362). -/
structure GroupEntry where
  totalRuns : ℕ
  timedRuns : ℕ
  averageRating : ℚ
  completionRate : ℚ
deriving DecidableEq

/-- Finalized `memberNetworks` entry (lines 368-375). -/
structure MemberNetEntry where
  name : String
  server : String
  spec : String
  totalRuns : ℕ
  playedWithCount : ℕ
  playedWith : List String
deriving DecidableEq

/-- Result of `processGuildSeasonalStats` (lines 192-207 give the shape).
`lastUpdated` holds the `now` argument modelling `new Date()`. -/
structure GuildStats where
  totalCharacters : ℕ
  charactersWithMplus : ℕ
  totalRuns : ℕ
  totalTimedRuns : ℕ
  averageRating : ℚ
  highestKeyOverall : ℕ
  highestTimedKey : ℕ
  topPlayers : List TopPlayer
  dungeonLeaderboard : List (String × DungeonBoardEntry)
  affixStats : List (String × GroupEntry)
  roleStats : List (String × GroupEntry)
  memberNetworks : List (String × MemberNetEntry)
  season : ℕ
  lastUpdated : ℕ
deriving DecidableEq

/-- Mutable loop state of the `characters.forEach` (lines 209-213 plus the
counters of `guildStats` the loop mutates). -/
structure GuildAcc where
  totalCharacters : ℕ
  charactersWithMplus : ℕ
  totalRuns : ℕ
  totalTimedRuns : ℕ
  highestKeyOverall : ℕ
  highestTimedKey : ℕ
  characterStats : List TopPlayer
  dungeonRuns : List (String × DungeonAcc)
  affixRuns : List (String × GroupAcc)
  roleRuns : List (String × GroupAcc)
  memberNets : List (String × MemberNetAcc)
deriving DecidableEq

/-- The key `${name}-${server}` of a played-with member (lines 304, 115). -/
def mkey (m : PlayedMember) : String := m.name ++ "-" ++ m.server

/-- The `seasonalStats.topPlayedMembers.forEach` fold of
`processGuildSeasonalStats` (lines 302-317): merge one qualifying
character's top played members into the guild member-network accumulator;
`charKey` is `${character.name}-${character.server}`. -/
def trackMemberNetworks (mns : List (String × MemberNetAcc)) (charKey : String)
    (topPlayed : List PlayedMember) : List (String × MemberNetAcc) :=
  topPlayed.foldl
    (fun mns member =>
      upsert (mkey member) ⟨member.name, member.server, member.spec, 0, []⟩
        (fun m =>
          { m with
            totalRuns := m.totalRuns + member.count
            playedWith := setAdd m.playedWith charKey })
        mns)
    mns

/-- Body of the `characters.forEach(character => …)` loop (lines 215-319). -/
def guildStep (acc : GuildAcc) (character : Character) : GuildAcc :=
  let acc := { acc with totalCharacters := acc.totalCharacters + 1 }
  let seasonalStats := processCharacterSeasonalStats character
  if seasonalStats.totalRuns > 0 then
    let charKey := character.name ++ "-" ++ character.server
    { acc with
      charactersWithMplus := acc.charactersWithMplus + 1
      totalRuns := acc.totalRuns + seasonalStats.totalRuns
      totalTimedRuns := acc.totalTimedRuns + seasonalStats.completedRuns
      highestKeyOverall :=
        if seasonalStats.highestKeyOverall > acc.highestKeyOverall then
          seasonalStats.highestKeyOverall
        else acc.highestKeyOverall
      highestTimedKey :=
        if seasonalStats.highestTimedKey > acc.highestTimedKey then
          seasonalStats.highestTimedKey
        else acc.highestTimedKey
      characterStats :=
        acc.characterStats ++
          [{ name := character.name
             server := character.server
             spec := jsOrS character.metaSpec "Unknown"
             className := jsOrS character.metaClass "Unknown"
             rating := character.currentRating
             highestTimedKey := seasonalStats.highestTimedKey
             highestKeyOverall := seasonalStats.highestKeyOverall
             totalRuns := seasonalStats.totalRuns
             completionRate := seasonalStats.completionRate.getD 0
             averageRating := seasonalStats.averageRating }]
      dungeonRuns :=
        seasonalStats.dungeonStats.foldl
          (fun dr e =>
            upsert e.1 ⟨0, 0, 0, 0, []⟩
              (fun d =>
                { d with
                  totalRuns := d.totalRuns + e.2.totalRuns
                  timedRuns := d.timedRuns + e.2.timedRuns
                  totalRating := d.totalRating + e.2.totalRating
                  players := setAdd d.players charKey
                  highestKey :=
                    if e.2.highestKey > d.highestKey then e.2.highestKey
                    else d.highestKey })
              dr)
          acc.dungeonRuns
      affixRuns :=
        seasonalStats.affixStats.foldl
          (fun ar e =>
            upsert e.1 ⟨0, 0, 0⟩
              (fun a =>
                { a with
                  totalRuns := a.totalRuns + e.2.totalRuns
                  timedRuns := a.timedRuns + e.2.timedRuns
                  totalRating := a.totalRating + e.2.totalRating })
              ar)
          acc.affixRuns
      roleRuns :=
        seasonalStats.roleStats.foldl
          (fun rr e =>
            upsert e.1 ⟨0, 0, 0⟩
              (fun a =>
                { a with
                  totalRuns := a.totalRuns + e.2.totalRuns
                  timedRuns := a.timedRuns + e.2.timedRuns
                  totalRating := a.totalRating + e.2.totalRating })
              rr)
          acc.roleRuns
      memberNets :=
        trackMemberNetworks acc.memberNets charKey seasonalStats.topPlayedMembers }
  else acc

/-- Descending rating order used by `.sort((a, b) => b.rating - a.rating)`
(line 327). -/
def descByRating (a b : TopPlayer) : Prop := b.rating ≤ a.rating

instance : DecidableRel descByRating := fun a b =>
  inferInstanceAs (Decidable (b.rating ≤ a.rating))

instance : IsTotal TopPlayer descByRating :=
  ⟨fun a b => le_total b.rating a.rating⟩

instance : IsTrans TopPlayer descByRating :=
  ⟨fun _ _ _ h1 h2 => le_trans h2 h1⟩

/-- `processGuildSeasonalStats(characters)` (lines 191-379); `now` models
the wall clock read by `new Date()` at line 206. The season is NOT a
parameter: it is the module-level `CURRENT_MPLUS_SEASON` constant. -/
def processGuildSeasonalStats (characters : List Character) (now : ℕ) : GuildStats :=
  let acc := characters.foldl guildStep ⟨0, 0, 0, 0, 0, 0, [], [], [], [], []⟩
  let averageRating :=
    if acc.charactersWithMplus > 0 then
      (characters.foldl (fun sum char => sum + char.currentRating) 0) /
        (acc.charactersWithMplus : ℚ)
    else 0
  { totalCharacters := acc.totalCharacters
    charactersWithMplus := acc.charactersWithMplus
    totalRuns := acc.totalRuns
    totalTimedRuns := acc.totalTimedRuns
    averageRating := averageRating
    highestKeyOverall := acc.highestKeyOverall
    highestTimedKey := acc.highestTimedKey
    topPlayers := (List.insertionSort descByRating acc.characterStats).take 10
    dungeonLeaderboard :=
      acc.dungeonRuns.map fun e =>
        (e.1,
          { totalRuns := e.2.totalRuns
            timedRuns := e.2.timedRuns
            highestKey := e.2.highestKey
            averageRating :=
              if e.2.totalRuns > 0 then e.2.totalRating / (e.2.totalRuns : ℚ) else 0
            completionRate :=
              if e.2.totalRuns > 0 then
                ((e.2.timedRuns : ℚ) / (e.2.totalRuns : ℚ)) * 100
              else 0
            playerCount := e.2.players.length })
    affixStats :=
      acc.affixRuns.map fun e =>
        (e.1,
          { totalRuns := e.2.totalRuns
            timedRuns := e.2.timedRuns
            averageRating :=
              if e.2.totalRuns > 0 then e.2.totalRating / (e.2.totalRuns : ℚ) else 0
            completionRate :=
              if e.2.totalRuns > 0 then
                ((e.2.timedRuns : ℚ) / (e.2.totalRuns : ℚ)) * 100
              else 0 })
    roleStats :=
      acc.roleRuns.map fun e =>
        (e.1,
          { totalRuns := e.2.totalRuns
            timedRuns := e.2.timedRuns
            averageRating :=
              if e.2.totalRuns > 0 then e.2.totalRating / (e.2.totalRuns : ℚ) else 0
            completionRate :=
              if e.2.totalRuns > 0 then
                ((e.2.timedRuns : ℚ) / (e.2.totalRuns : ℚ)) * 100
              else 0 })
    memberNetworks :=
      acc.memberNets.map fun e =>
        (e.1,
          { name := e.2.name
            server := e.2.server
            spec := e.2.spec
            totalRuns := e.2.totalRuns
            playedWithCount := e.2.playedWith.length
            playedWith := e.2.playedWith })
    season := CURRENT_MPLUS_SEASON
    lastUpdated := now }

/-- `highestKeyOverall` / `highestTimedKey` achievement cell (lines 388-397). -/
structure KeyAchievement where
  value : ℕ
  dungeon : Option String
  player : Option String
deriving DecidableEq

/-- `{ name, ...data }` for the most-active-dungeon scan (line 412). -/
structure NamedDungeonEntry where
  name : String
  totalRuns : ℕ
  timedRuns : ℕ
  highestKey : ℕ
  averageRating : ℚ
  completionRate : ℚ
  playerCount : ℕ
deriving DecidableEq

/-- Result of `getTopSeasonalAchievements` (lines 387-402). -/
structure Achievements where
  highestKeyOverall : KeyAchievement
  highestTimedKey : KeyAchievement
  topRatedPlayer : Option TopPlayer
  mostActivePlayer : Option TopPlayer
  mostActiveDungeon : Option NamedDungeonEntry
  bestCompletionRate : Option TopPlayer
deriving DecidableEq

/-- `getTopSeasonalAchievements(guildStats)` (lines 386-421). Each `reduce`
starts from `null` and keeps the running best only on a strictly-greater
comparison against `max?.field || 0`. -/
def getTopSeasonalAchievements (guildStats : GuildStats) : Achievements :=
  let mostActivePlayer :=
    guildStats.topPlayers.foldl
      (fun mx player =>
        if player.totalRuns > (match mx with | some m => m.totalRuns | none => 0) then
          some player
        else mx)
      none
  let mostActiveDungeon :=
    guildStats.dungeonLeaderboard.foldl
      (fun mx e =>
        if e.2.totalRuns > (match mx with | some m => m.totalRuns | none => 0) then
          some
            { name := e.1
              totalRuns := e.2.totalRuns
              timedRuns := e.2.timedRuns
              highestKey := e.2.highestKey
              averageRating := e.2.averageRating
              completionRate := e.2.completionRate
              playerCount := e.2.playerCount }
        else mx)
      none
  let bestCompletionRate :=
    guildStats.topPlayers.foldl
      (fun mx player =>
        if player.completionRate >
            (match mx with | some m => m.completionRate | none => 0) then
          some player
        else mx)
      none
  { highestKeyOverall := ⟨guildStats.highestKeyOverall, none, none⟩
    highestTimedKey := ⟨guildStats.highestTimedKey, none, none⟩
    topRatedPlayer := guildStats.topPlayers.head?
    mostActivePlayer := mostActivePlayer
    mostActiveDungeon := mostActiveDungeon
    bestCompletionRate := bestCompletionRate }

/-- The claim's (spec §4.2) description of the guild-wide average rating,
written from the spec's words for comparison with the source: only
QUALIFYING characters (aggregated `totalRuns > 0`) contribute their own
current rating to the numerator, averaged over the number of qualifying
characters. -/
def guildAverageRatingSpec (characters : List Character) : ℚ :=
  let qualifying :=
    characters.filter fun c => 0 < (processCharacterSeasonalStats c).totalRuns
  if 0 < qualifying.length then
    (qualifying.map Character.currentRating).sum / (qualifying.length : ℚ)
  else 0

/-- The claim's (spec §4.2) contract `aggregateGuildSeasonalStats(characters,
season)`, written from the spec's words for comparison with the source: the
season is a caller-supplied argument and is returned verbatim. -/
def aggregateGuildSeasonalStatsSpec (characters : List Character) (season : ℕ)
    (now : ℕ) : GuildStats :=
  { processGuildSeasonalStats characters now with season := season }

/-! ### Sample inputs used by witnesses and counterexamples -/

/-- A single timed level-10 run with rating 100. -/
def sampleRun : Run :=
  { keystone_level := 10, is_completed_within_time := true, rating := some 100,
    duration := some 1000, dungeonName := some "DOTI", keystone_affixes := none,
    members := none }

/-- A character with one run and current rating 100. -/
def sampleCharA : Character :=
  { name := "A", server := "S", metaSpec := none, metaClass := none,
    mythicPlusScore := some 100, rawMplusRating := none,
    currentSeason := some ⟨some [sampleRun]⟩ }

/-- A character with no seasonal data but current rating 50. -/
def sampleCharB : Character :=
  { name := "B", server := "S", metaSpec := none, metaClass := none,
    mythicPlusScore := some 50, rawMplusRating := none, currentSeason := none }

/-- A character with an empty best-runs list. -/
def sampleCharEmpty : Character :=
  { name := "E", server := "S", metaSpec := none, metaClass := none,
    mythicPlusScore := none, rawMplusRating := none,
    currentSeason := some ⟨some []⟩ }

/-- Identical to `sampleCharEmpty` except the season record is absent. -/
def sampleCharNoSeason : Character :=
  { sampleCharEmpty with currentSeason := none }

/-- A top-player entry for achievement tests. -/
def sampleTopPlayer : TopPlayer :=
  ⟨"A", "S", "Spec", "Class", 100, 5, 6, 7, 50, 60⟩

/-- A guild-stats record with one top player. -/
def sampleGuildStatsNonempty : GuildStats :=
  ⟨1, 1, 7, 5, 100, 6, 5, [sampleTopPlayer], [], [], [], [], 15, 0⟩

/-- A top-player entry with zero runs and zero completion rate. -/
def sampleZeroPlayer : TopPlayer :=
  ⟨"Z", "S", "Spec", "Class", 10, 0, 0, 0, 0, 0⟩

/-- A guild-stats record whose only top player has all-zero activity. -/
def sampleGuildStatsZero : GuildStats :=
  ⟨1, 0, 0, 0, 0, 0, 0, [sampleZeroPlayer], [], [], [], [], 15, 0⟩

/-! ### Claim C6 -/

/-- C6: for a character whose run list is empty, the Character Aggregator
returns all-zero counters and rates and empty maps and lists. -/
theorem emptyRunList_allZero (c : Character) (s : SeasonData)
    (hc : c.currentSeason = some s) (hb : s.best_runs = some []) :
    (processCharacterSeasonalStats c).totalRuns = 0 ∧
    (processCharacterSeasonalStats c).averageRating = 0 ∧
    (processCharacterSeasonalStats c).completionRate = some 0 ∧
    (processCharacterSeasonalStats c).dungeonStats = [] ∧
    (processCharacterSeasonalStats c).affixStats = [] ∧
    (processCharacterSeasonalStats c).roleStats = [] ∧
    (processCharacterSeasonalStats c).topPlayedMembers = [] := by
  simp [processCharacterSeasonalStats, hc, hb]

/-- Witness for C6 at a concrete character with an empty run list. -/
theorem emptyRunList_allZero_witness :
    (processCharacterSeasonalStats sampleCharEmpty).totalRuns = 0 ∧
    (processCharacterSeasonalStats sampleCharEmpty).averageRating = 0 ∧
    (processCharacterSeasonalStats sampleCharEmpty).completionRate = some 0 ∧
    (processCharacterSeasonalStats sampleCharEmpty).dungeonStats = [] ∧
    (processCharacterSeasonalStats sampleCharEmpty).affixStats = [] ∧
    (processCharacterSeasonalStats sampleCharEmpty).roleStats = [] ∧
    (processCharacterSeasonalStats sampleCharEmpty).topPlayedMembers = [] :=
  emptyRunList_allZero sampleCharEmpty ⟨some []⟩ rfl rfl

/-! ### Claim C3 -/

/-- C3 counterexample: the degraded default object is NOT field-for-field
the object returned for an empty run list — the early return of lines 20-31
omits `completionRate`, while the empty-list path sets it to `0`. -/
theorem degradedDefault_ne_emptyRunsResult :
    processCharacterSeasonalStats sampleCharNoSeason ≠
      processCharacterSeasonalStats sampleCharEmpty := by
  decide

/-- C3 amended: a character whose season record or best-runs list is absent
gets the all-zero default, which agrees with the empty-run-list result on
every field except `completionRate` (absent in the default, `0` for an
empty list). -/
theorem degradedDefault_agreement (c c' : Character) (s' : SeasonData)
    (h : Option.bind c.currentSeason SeasonData.best_runs = none)
    (hc' : c'.currentSeason = some s') (hb' : s'.best_runs = some []) :
    processCharacterSeasonalStats c = emptySeasonalStats ∧
    (processCharacterSeasonalStats c).highestTimedKey =
      (processCharacterSeasonalStats c').highestTimedKey ∧
    (processCharacterSeasonalStats c).highestKeyOverall =
      (processCharacterSeasonalStats c').highestKeyOverall ∧
    (processCharacterSeasonalStats c).totalRuns =
      (processCharacterSeasonalStats c').totalRuns ∧
    (processCharacterSeasonalStats c).completedRuns =
      (processCharacterSeasonalStats c').completedRuns ∧
    (processCharacterSeasonalStats c).averageRating =
      (processCharacterSeasonalStats c').averageRating ∧
    (processCharacterSeasonalStats c).topPlayedMembers =
      (processCharacterSeasonalStats c').topPlayedMembers ∧
    (processCharacterSeasonalStats c).dungeonStats =
      (processCharacterSeasonalStats c').dungeonStats ∧
    (processCharacterSeasonalStats c).affixStats =
      (processCharacterSeasonalStats c').affixStats ∧
    (processCharacterSeasonalStats c).roleStats =
      (processCharacterSeasonalStats c').roleStats ∧
    (processCharacterSeasonalStats c).totalPlaytime =
      (processCharacterSeasonalStats c').totalPlaytime ∧
    (processCharacterSeasonalStats c).completionRate = none ∧
    (processCharacterSeasonalStats c').completionRate = some 0 := by
  have hdeg : processCharacterSeasonalStats c = emptySeasonalStats := by
    match hcs : c.currentSeason with
    | none => simp [processCharacterSeasonalStats, hcs]
    | some s =>
      rw [hcs] at h
      simp only [Option.bind] at h
      simp [processCharacterSeasonalStats, hcs, h]
  rw [hdeg]
  simp [processCharacterSeasonalStats, hc', hb', emptySeasonalStats]

/-- Witness for C3's amended claim at concrete characters. -/
theorem degradedDefault_agreement_witness :
    processCharacterSeasonalStats sampleCharNoSeason = emptySeasonalStats ∧
    (processCharacterSeasonalStats sampleCharNoSeason).completionRate = none ∧
    (processCharacterSeasonalStats sampleCharEmpty).completionRate = some 0 :=
  have h := degradedDefault_agreement sampleCharNoSeason sampleCharEmpty
    ⟨some []⟩ rfl rfl rfl
  ⟨h.1, h.2.2.2.2.2.2.2.2.2.2.2.1, h.2.2.2.2.2.2.2.2.2.2.2.2⟩

/-! ### Claim C4 -/

/-- C4 counterexample: two invocations of the Guild Aggregator on the same
(empty) character list but at different wall-clock instants do not return
bit-for-bit identical objects — `lastUpdated` differs. -/
theorem guildStats_not_clock_independent :
    processGuildSeasonalStats [] 0 ≠ processGuildSeasonalStats [] 1 := by
  decide

/-- C4 amended: the Character Aggregator is deterministic, and the Guild
Aggregator is deterministic in every field except `lastUpdated`, which
records the invocation-time clock reading (`new Date()`). -/
theorem aggregators_deterministic_except_lastUpdated (c : Character)
    (characters : List Character) (n₁ n₂ : ℕ) :
    processCharacterSeasonalStats c = processCharacterSeasonalStats c ∧
    { processGuildSeasonalStats characters n₁ with lastUpdated := 0 } =
      { processGuildSeasonalStats characters n₂ with lastUpdated := 0 } ∧
    (processGuildSeasonalStats characters n₁).lastUpdated = n₁ := by
  exact ⟨rfl, rfl, rfl⟩

/-! ### Claim C5 -/

/-- C5 counterexample: the source's Guild Aggregator has no season
parameter; at the concrete input (empty roster, a caller wanting season 5)
its `season` field is the module constant `CURRENT_MPLUS_SEASON = 15`, not
the caller's 5 that the spec-modelled contract would return. -/
theorem season_not_caller_supplied :
    (processGuildSeasonalStats [] 0).season = CURRENT_MPLUS_SEASON ∧
    (aggregateGuildSeasonalStatsSpec [] 5 0).season = 5 ∧
    (processGuildSeasonalStats [] 0).season ≠
      (aggregateGuildSeasonalStatsSpec [] 5 0).season := by
  decide

/-- C5 amended: the Guild Aggregator takes only the character list; the
`season` field of its result always equals the module-level configuration
constant `CURRENT_MPLUS_SEASON`, for every input. -/
theorem season_is_config_constant (characters : List Character) (now : ℕ) :
    (processGuildSeasonalStats characters now).season = CURRENT_MPLUS_SEASON := rfl

/-! ### Claim C9 -/

/-- C9: the Achievement Extractor's `topRatedPlayer` is `topPlayers[0]` when
that list is non-empty and null when it is empty, and its
`highestKeyOverall` value is copied from the guild stats field of the same
name. -/
theorem achievements_topRated_and_highestKey (gs : GuildStats) :
    (∀ p ps, gs.topPlayers = p :: ps →
      (getTopSeasonalAchievements gs).topRatedPlayer = some p) ∧
    (gs.topPlayers = [] → (getTopSeasonalAchievements gs).topRatedPlayer = none) ∧
    (getTopSeasonalAchievements gs).highestKeyOverall.value = gs.highestKeyOverall := by
  refine ⟨fun p ps h => ?_, fun h => ?_, rfl⟩ <;>
    simp [getTopSeasonalAchievements, h]

/-- Witness for C9 at a one-player guild record and at the empty-roster
aggregation result. -/
theorem achievements_topRated_and_highestKey_witness :
    (getTopSeasonalAchievements sampleGuildStatsNonempty).topRatedPlayer =
      some sampleTopPlayer ∧
    (getTopSeasonalAchievements (processGuildSeasonalStats [] 0)).topRatedPlayer =
      none ∧
    (getTopSeasonalAchievements sampleGuildStatsNonempty).highestKeyOverall.value =
      sampleGuildStatsNonempty.highestKeyOverall :=
  ⟨(achievements_topRated_and_highestKey sampleGuildStatsNonempty).1
      sampleTopPlayer [] rfl,
    (achievements_topRated_and_highestKey (processGuildSeasonalStats [] 0)).2.1 rfl,
    (achievements_topRated_and_highestKey sampleGuildStatsNonempty).2.2⟩

/-! ### Claim C7 -/

/-- A truncated insertion sort is still sorted. -/
lemma sorted_take_insertionSort {α : Type} (r : α → α → Prop) [DecidableRel r]
    [IsTotal α r] [IsTrans α r] (l : List α) (n : ℕ) :
    List.Sorted r ((List.insertionSort r l).take n) :=
  List.Pairwise.sublist (List.take_sublist n _) (List.sorted_insertionSort r l)

/-- Taking ten elements yields at most ten elements. -/
lemma length_take10_le {α : Type} (l : List α) : (l.take 10).length ≤ 10 := by
  simp [List.length_take]

/-- The character aggregator's `topPlayedMembers` is either empty (degraded
input) or a truncated sort of the play-count map's values. -/
lemma topPlayedMembers_shape (c : Character) :
    (processCharacterSeasonalStats c).topPlayedMembers = [] ∨
    ∃ l, (processCharacterSeasonalStats c).topPlayedMembers =
      (List.insertionSort descByCount l).take 10 := by
  match hcs : c.currentSeason with
  | none => exact Or.inl (by simp [processCharacterSeasonalStats, hcs, emptySeasonalStats])
  | some s =>
    match hb : s.best_runs with
    | none => exact Or.inl (by simp [processCharacterSeasonalStats, hcs, hb, emptySeasonalStats])
    | some rs =>
      exact Or.inr
        ⟨(List.foldl processRun ⟨0, 0, 0, 0, 0, [], [], ([], [])⟩ rs).roleStats.1.map
            (fun e => e.2),
          by simp [processCharacterSeasonalStats, hcs, hb]⟩

/-- C7: `topPlayedMembers` and `topPlayers` are capped at ten entries and
sorted descending by play count and rating respectively. -/
theorem topLists_capped_and_sorted (c : Character)
    (characters : List Character) (now : ℕ) :
    (processCharacterSeasonalStats c).topPlayedMembers.length ≤ 10 ∧
    List.Sorted descByCount (processCharacterSeasonalStats c).topPlayedMembers ∧
    (processGuildSeasonalStats characters now).topPlayers.length ≤ 10 ∧
    List.Sorted descByRating (processGuildSeasonalStats characters now).topPlayers := by
  have hg : (processGuildSeasonalStats characters now).topPlayers =
      (List.insertionSort descByRating
        (List.foldl guildStep ⟨0, 0, 0, 0, 0, 0, [], [], [], [], []⟩
          characters).characterStats).take 10 := by
    simp [processGuildSeasonalStats]
  refine ⟨?_, ?_, ?_, ?_⟩
  · rcases topPlayedMembers_shape c with h | ⟨l, h⟩ <;> rw [h]
    · simp
    · exact length_take10_le _
  · rcases topPlayedMembers_shape c with h | ⟨l, h⟩ <;> rw [h]
    · exact List.sorted_nil
    · exact sorted_take_insertionSort descByCount l 10
  · rw [hg]; exact length_take10_le _
  · rw [hg]; exact sorted_take_insertionSort descByRating _ 10

/-! ### Claim C10 -/

/-- A fold whose step either keeps the accumulator or replaces it with the
current element ends at the start value or at a list element. -/
lemma foldl_pick_mem {α : Type} (g : Option α → α → Option α)
    (hg : ∀ mx p, g mx p = mx ∨ g mx p = some p) :
    ∀ (l : List α) (acc : Option α),
      l.foldl g acc = acc ∨ ∃ p ∈ l, l.foldl g acc = some p
  | [], _ => Or.inl rfl
  | h :: t, acc => by
    rcases foldl_pick_mem g hg t (g acc h) with heq | ⟨p, hp, heq⟩
    · rcases hg acc h with h1 | h1
      · exact Or.inl (by rw [List.foldl_cons, heq, h1])
      · exact Or.inr ⟨h, List.mem_cons_self h t, by rw [List.foldl_cons, heq, h1]⟩
    · exact Or.inr ⟨p, List.mem_cons_of_mem _ hp, by rw [List.foldl_cons]; exact heq⟩

/-- A fold that never leaves `none` on any element of the list stays `none`. -/
lemma foldl_pick_none {α : Type} (g : Option α → α → Option α) (l : List α)
    (hg : ∀ p ∈ l, g none p = none) : l.foldl g none = none := by
  induction l with
  | nil => rfl
  | cons h t ih =>
    rw [List.foldl_cons, hg h (List.mem_cons_self h t)]
    exact ih fun p hp => hg p (List.mem_cons_of_mem _ hp)

/-- C10: the most-active-player and best-completion-rate scans pick from
`topPlayers` (or return null), and return null whenever every top player
has zero runs (respectively zero completion rate), because the comparison
is strictly-greater against a default of 0. -/
theorem achievements_scans_from_topPlayers (gs : GuildStats) :
    ((getTopSeasonalAchievements gs).mostActivePlayer = none ∨
      ∃ p ∈ gs.topPlayers,
        (getTopSeasonalAchievements gs).mostActivePlayer = some p) ∧
    ((getTopSeasonalAchievements gs).bestCompletionRate = none ∨
      ∃ p ∈ gs.topPlayers,
        (getTopSeasonalAchievements gs).bestCompletionRate = some p) ∧
    ((∀ p ∈ gs.topPlayers, p.totalRuns = 0) →
      (getTopSeasonalAchievements gs).mostActivePlayer = none) ∧
    ((∀ p ∈ gs.topPlayers, p.completionRate = 0) →
      (getTopSeasonalAchievements gs).bestCompletionRate = none) := by
  have hma : (getTopSeasonalAchievements gs).mostActivePlayer =
      gs.topPlayers.foldl
        (fun mx player =>
          if player.totalRuns > (match mx with | some m => m.totalRuns | none => 0)
          then some player else mx) none := rfl
  have hbc : (getTopSeasonalAchievements gs).bestCompletionRate =
      gs.topPlayers.foldl
        (fun mx player =>
          if player.completionRate >
              (match mx with | some m => m.completionRate | none => 0)
          then some player else mx) none := rfl
  refine ⟨?_, ?_, fun hz => ?_, fun hz => ?_⟩
  · rw [hma]
    refine foldl_pick_mem _ (fun mx p => ?_) _ _
    split
    · exact Or.inr rfl
    · exact Or.inl rfl
  · rw [hbc]
    refine foldl_pick_mem _ (fun mx p => ?_) _ _
    split
    · exact Or.inr rfl
    · exact Or.inl rfl
  · rw [hma]
    exact foldl_pick_none _ _ fun p hp => by simp [hz p hp]
  · rw [hbc]
    exact foldl_pick_none _ _ fun p hp => by simp [hz p hp]

/-- Witness for C10 at a guild record whose only top player has zero runs
and zero completion rate. -/
theorem achievements_scans_witness :
    (getTopSeasonalAchievements sampleGuildStatsZero).mostActivePlayer = none ∧
    (getTopSeasonalAchievements sampleGuildStatsZero).bestCompletionRate = none :=
  have h := achievements_scans_from_topPlayers sampleGuildStatsZero
  ⟨h.2.2.1 (by simp [sampleGuildStatsZero, sampleZeroPlayer]),
    h.2.2.2 (by simp [sampleGuildStatsZero, sampleZeroPlayer])⟩

/-! ### Claim C1 -/

/-- `guildStep` counts a character into `charactersWithMplus` iff its
aggregated `totalRuns` is positive. -/
lemma guildStep_charactersWithMplus (acc : GuildAcc) (c : Character) :
    (guildStep acc c).charactersWithMplus =
      if 0 < (processCharacterSeasonalStats c).totalRuns then
        acc.charactersWithMplus + 1
      else acc.charactersWithMplus := by
  by_cases h : 0 < (processCharacterSeasonalStats c).totalRuns <;>
    simp [guildStep, h]

/-- The guild fold's `charactersWithMplus` counts the qualifying characters. -/
lemma foldl_guildStep_charactersWithMplus (characters : List Character)
    (acc : GuildAcc) :
    (List.foldl guildStep acc characters).charactersWithMplus =
      acc.charactersWithMplus +
        characters.countP
          (fun c => decide (0 < (processCharacterSeasonalStats c).totalRuns)) := by
  induction characters generalizing acc with
  | nil => simp
  | cons c t ih =>
    rw [List.foldl_cons, ih, guildStep_charactersWithMplus, List.countP_cons]
    by_cases h : 0 < (processCharacterSeasonalStats c).totalRuns
    · simp only [h, if_true, decide_eq_true_eq, if_pos h]
      omega
    · simp [h]

/-- The `characters.reduce` of line 323 sums every character's current
rating. -/
lemma foldl_rating_sum (characters : List Character) (s : ℚ) :
    List.foldl (fun sum char => sum + char.currentRating) s characters =
      s + (characters.map Character.currentRating).sum := by
  induction characters generalizing s with
  | nil => simp
  | cons c t ih => simp [ih, add_assoc]

/-- C1 amended: the guild `averageRating` divides by the number of
qualifying characters, but its numerator sums the current ratings of ALL
characters — non-qualifying characters do contribute to the numerator.
It is 0 when no character qualifies. -/
theorem guildAverageRating_sums_all_characters (characters : List Character)
    (now : ℕ) :
    (processGuildSeasonalStats characters now).averageRating =
      if 0 < characters.countP
          (fun c => decide (0 < (processCharacterSeasonalStats c).totalRuns)) then
        (characters.map Character.currentRating).sum /
          (characters.countP
            (fun c => decide (0 < (processCharacterSeasonalStats c).totalRuns)) : ℚ)
      else 0 := by
  have hcwm :=
    foldl_guildStep_charactersWithMplus characters ⟨0, 0, 0, 0, 0, 0, [], [], [], [], []⟩
  have hsum := foldl_rating_sum characters 0
  simp only [processGuildSeasonalStats, hcwm, hsum, Nat.zero_add, zero_add]

/-- C1 counterexample: with character A (one run, rating 100) and character
B (no runs, rating 50), the code returns (100+50)/1 = 150 while the claim's
qualifying-only average is 100. -/
theorem guildAverageRating_counterexample :
    (processGuildSeasonalStats [sampleCharA, sampleCharB] 0).averageRating ≠
      guildAverageRatingSpec [sampleCharA, sampleCharB] := by
  have h1 : (processGuildSeasonalStats [sampleCharA, sampleCharB] 0).averageRating
      = 150 := by
    simp +decide [processGuildSeasonalStats, guildStep, processCharacterSeasonalStats,
      sampleCharA, sampleCharB, sampleRun, processRun, jsOrQ, jsOrS, upsert,
      Character.currentRating, emptySeasonalStats, setAdd, trackMemberNetworks]
    norm_num
  have h2 : guildAverageRatingSpec [sampleCharA, sampleCharB] = 100 := by
    simp +decide [guildAverageRatingSpec, processCharacterSeasonalStats,
      sampleCharA, sampleCharB, sampleRun, processRun, jsOrQ, jsOrS, upsert,
      Character.currentRating, emptySeasonalStats]
  rw [h1, h2]
  norm_num

/-! ### Claim C2 -/

/-- The two seasonal maxima of a character whose five runs have the given
keystone levels and timed flags, whatever the runs' other fields are. -/
lemma maxima_of_five_runs (c : Character) (s : SeasonData) (rs : List Run)
    (k0 k1 k2 k3 k4 : ℕ) (b0 b1 b2 b3 b4 : Bool)
    (hc : c.currentSeason = some s) (hb : s.best_runs = some rs)
    (hk : rs.map Run.keystone_level = [k0, k1, k2, k3, k4])
    (ht : rs.map Run.is_completed_within_time = [b0, b1, b2, b3, b4]) :
    (processCharacterSeasonalStats c).highestKeyOverall =
      (List.foldl (fun m k => if k > m then k else m) 0 [k0, k1, k2, k3, k4]) ∧
    (processCharacterSeasonalStats c).highestTimedKey =
      (List.foldl (fun m kb => if kb.2 ∧ kb.1 > m then kb.1 else m) 0
        [(k0, b0), (k1, b1), (k2, b2), (k3, b3), (k4, b4)]) := by
  cases rs with
  | nil => simp at hk
  | cons r0 rs =>
  cases rs with
  | nil => simp at hk
  | cons r1 rs =>
  cases rs with
  | nil => simp at hk
  | cons r2 rs =>
  cases rs with
  | nil => simp at hk
  | cons r3 rs =>
  cases rs with
  | nil => simp at hk
  | cons r4 rs =>
  cases rs with
  | cons r5 rs => simp at hk
  | nil =>
  simp only [List.map_cons, List.map_nil, List.cons.injEq, and_true] at hk ht
  obtain ⟨hk0, hk1, hk2, hk3, hk4⟩ := hk
  obtain ⟨ht0, ht1, ht2, ht3, ht4⟩ := ht
  constructor <;>
    simp [processCharacterSeasonalStats, hc, hb, processRun,
      hk0, hk1, hk2, hk3, hk4, ht0, ht1, ht2, ht3, ht4]

/-- C2 amended: with keystone levels [5, 12, 8, 20, 3] and exactly the runs
at indices 1 and 3 timed, the code yields `highestKeyOverall = 20` and
`highestTimedKey = 20` (the level-20 run at index 3 IS timed); the spec's
asserted `highestTimedKey = 12` instead arises when exactly the runs at
indices 1 and 2 are timed, so that no timed run reaches level 20. -/
theorem monotonic_maxima (c c' : Character) (s s' : SeasonData)
    (rs rs' : List Run)
    (hc : c.currentSeason = some s) (hb : s.best_runs = some rs)
    (hk : rs.map Run.keystone_level = [5, 12, 8, 20, 3])
    (ht : rs.map Run.is_completed_within_time = [false, true, false, true, false])
    (hc' : c'.currentSeason = some s') (hb' : s'.best_runs = some rs')
    (hk' : rs'.map Run.keystone_level = [5, 12, 8, 20, 3])
    (ht' : rs'.map Run.is_completed_within_time = [false, true, true, false, false]) :
    (processCharacterSeasonalStats c).highestKeyOverall = 20 ∧
    (processCharacterSeasonalStats c).highestTimedKey = 20 ∧
    (processCharacterSeasonalStats c').highestKeyOverall = 20 ∧
    (processCharacterSeasonalStats c').highestTimedKey = 12 := by
  have h := maxima_of_five_runs c s rs 5 12 8 20 3 false true false true false
    hc hb hk ht
  have h' := maxima_of_five_runs c' s' rs' 5 12 8 20 3 false true true false false
    hc' hb' hk' ht'
  refine ⟨?_, ?_, ?_, ?_⟩
  · rw [h.1]; decide
  · rw [h.2]; decide
  · rw [h'.1]; decide
  · rw [h'.2]; decide

/-- Five concrete runs realizing the level/timed pattern of C2. -/
def sampleRunsC2 : List Run :=
  [{ keystone_level := 5, is_completed_within_time := false, rating := some 80,
     duration := some 100, dungeonName := some "AK", keystone_affixes := none,
     members := none },
   { keystone_level := 12, is_completed_within_time := true, rating := some 150,
     duration := some 110, dungeonName := some "DOTI", keystone_affixes := none,
     members := none },
   { keystone_level := 8, is_completed_within_time := false, rating := some 90,
     duration := some 120, dungeonName := some "EB", keystone_affixes := none,
     members := none },
   { keystone_level := 20, is_completed_within_time := true, rating := some 200,
     duration := some 130, dungeonName := some "AK", keystone_affixes := none,
     members := none },
   { keystone_level := 3, is_completed_within_time := false, rating := some 40,
     duration := some 90, dungeonName := some "EB", keystone_affixes := none,
     members := none }]

/-- The five C2 runs with exactly indices 1 and 2 timed instead. -/
def sampleRunsC2' : List Run :=
  [{ keystone_level := 5, is_completed_within_time := false, rating := some 80,
     duration := some 100, dungeonName := some "AK", keystone_affixes := none,
     members := none },
   { keystone_level := 12, is_completed_within_time := true, rating := some 150,
     duration := some 110, dungeonName := some "DOTI", keystone_affixes := none,
     members := none },
   { keystone_level := 8, is_completed_within_time := true, rating := some 90,
     duration := some 120, dungeonName := some "EB", keystone_affixes := none,
     members := none },
   { keystone_level := 20, is_completed_within_time := false, rating := some 200,
     duration := some 130, dungeonName := some "AK", keystone_affixes := none,
     members := none },
   { keystone_level := 3, is_completed_within_time := false, rating := some 40,
     duration := some 90, dungeonName := some "EB", keystone_affixes := none,
     members := none }]

/-- A character holding the five C2 runs (indices 1 and 3 timed). -/
def sampleCharC2 : Character :=
  { name := "K", server := "S", metaSpec := none, metaClass := none,
    mythicPlusScore := none, rawMplusRating := none,
    currentSeason := some ⟨some sampleRunsC2⟩ }

/-- A character holding the variant C2 runs (indices 1 and 2 timed). -/
def sampleCharC2' : Character :=
  { name := "L", server := "S", metaSpec := none, metaClass := none,
    mythicPlusScore := none, rawMplusRating := none,
    currentSeason := some ⟨some sampleRunsC2'⟩ }

/-- C2 counterexample: at the concrete input the claim describes (levels
[5, 12, 8, 20, 3], exactly indices 1 and 3 timed), the code returns
`highestTimedKey = 20`, not the 12 the claim asserts. -/
theorem monotonic_maxima_counterexample :
    (processCharacterSeasonalStats sampleCharC2).highestKeyOverall = 20 ∧
    (processCharacterSeasonalStats sampleCharC2).highestTimedKey = 20 ∧
    (processCharacterSeasonalStats sampleCharC2).highestTimedKey ≠ 12 := by
  refine ⟨?_, ?_, ?_⟩ <;> decide

/-- Witness for C2's amended claim at the two concrete five-run characters. -/
theorem monotonic_maxima_witness :
    (processCharacterSeasonalStats sampleCharC2).highestKeyOverall = 20 ∧
    (processCharacterSeasonalStats sampleCharC2).highestTimedKey = 20 ∧
    (processCharacterSeasonalStats sampleCharC2').highestKeyOverall = 20 ∧
    (processCharacterSeasonalStats sampleCharC2').highestTimedKey = 12 :=
  monotonic_maxima sampleCharC2 sampleCharC2' ⟨some sampleRunsC2⟩
    ⟨some sampleRunsC2'⟩ sampleRunsC2 sampleRunsC2' rfl rfl (by decide) (by decide)
    rfl rfl (by decide) (by decide)

/-! ### Claim C8 -/

/-- After an upsert at `k`, the binding at `k` is `f` of the previous
binding (or of the initial value when absent). -/
lemma getVal_upsert_self {V : Type} (m : List (String × V)) (k : String)
    (init : V) (f : V → V) :
    getVal (upsert k init f m) k = some (f ((getVal m k).getD init)) := by
  induction m with
  | nil => simp [upsert, getVal]
  | cons e t ih =>
    by_cases h : e.1 = k
    · simp [upsert, getVal, h]
    · simp [upsert, getVal, h, ih]

/-- An upsert at `k` leaves every other key's binding unchanged. -/
lemma getVal_upsert_ne {V : Type} (m : List (String × V)) (k k' : String)
    (h : k' ≠ k) (init : V) (f : V → V) :
    getVal (upsert k init f m) k' = getVal m k' := by
  induction m with
  | nil => simp [upsert, getVal, Ne.symm h]
  | cons e t ih =>
    by_cases he : e.1 = k
    · have h1 : k ≠ k' := Ne.symm h
      have h2 : e.1 ≠ k' := fun hh => h1 (he.symm.trans hh)
      simp [upsert, getVal, he, h1, h2]
    · simp [upsert, getVal, he, ih]

/-- Unfolding one step of the member-network fold. -/
lemma trackMemberNetworks_cons (mns : List (String × MemberNetAcc))
    (charKey : String) (m : PlayedMember) (t : List PlayedMember) :
    trackMemberNetworks mns charKey (m :: t) =
      trackMemberNetworks
        (upsert (mkey m) ⟨m.name, m.server, m.spec, 0, []⟩
          (fun x =>
            { x with
              totalRuns := x.totalRuns + m.count
              playedWith := setAdd x.playedWith charKey })
          mns)
        charKey t := rfl

/-- Keys that belong to none of the character's top played members are left
untouched by the member-network fold. -/
lemma trackMemberNetworks_not_played (mns : List (String × MemberNetAcc))
    (charKey : String) (topPlayed : List PlayedMember) (k : String)
    (hk : k ∉ topPlayed.map mkey) :
    getVal (trackMemberNetworks mns charKey topPlayed) k = getVal mns k := by
  induction topPlayed generalizing mns with
  | nil => rfl
  | cons m t ih =>
    simp only [List.map_cons, List.mem_cons, not_or] at hk
    rw [trackMemberNetworks_cons, ih _ hk.2, getVal_upsert_ne _ _ _ hk.1]

/-- Effect of the member-network fold at the key of one top played member:
its `totalRuns` grows by that member's count and the current character's
key is added to its `playedWith` set. -/
lemma trackMemberNetworks_played (mns : List (String × MemberNetAcc))
    (charKey : String) (topPlayed : List PlayedMember)
    (hnd : (topPlayed.map mkey).Nodup) (m : PlayedMember) (hm : m ∈ topPlayed) :
    getVal (trackMemberNetworks mns charKey topPlayed) (mkey m) =
      some
        { (getVal mns (mkey m)).getD ⟨m.name, m.server, m.spec, 0, []⟩ with
          totalRuns :=
            ((getVal mns (mkey m)).getD ⟨m.name, m.server, m.spec, 0, []⟩).totalRuns
              + m.count
          playedWith :=
            setAdd
              ((getVal mns (mkey m)).getD
                ⟨m.name, m.server, m.spec, 0, []⟩).playedWith
              charKey } := by
  induction topPlayed generalizing mns with
  | nil => cases hm
  | cons h t ih =>
    simp only [List.map_cons, List.nodup_cons] at hnd
    rcases List.mem_cons.mp hm with rfl | hmt
    · rw [trackMemberNetworks_cons,
        trackMemberNetworks_not_played _ _ _ _ hnd.1, getVal_upsert_self]
    · have hne : mkey m ≠ mkey h := fun he =>
        hnd.1 (he ▸ List.mem_map_of_mem mkey hmt)
      rw [trackMemberNetworks_cons, ih _ hnd.2 hmt,
        getVal_upsert_ne _ _ _ hne]

/-- Keys of an association list after an upsert: unchanged when the key was
present, appended otherwise. -/
lemma upsert_keys {V : Type} (m : List (String × V)) (k : String) (init : V)
    (f : V → V) :
    (upsert k init f m).map Prod.fst =
      if k ∈ m.map Prod.fst then m.map Prod.fst else m.map Prod.fst ++ [k] := by
  induction m with
  | nil => simp [upsert]
  | cons e t ih =>
    by_cases he : e.1 = k
    · simp [upsert, he]
    · have he' : ¬k = e.1 := fun hh => he hh.symm
      by_cases hmem : k ∈ t.map Prod.fst <;>
        simp [upsert, he, he', hmem, ih]

/-- An upsert keeps association-list keys duplicate-free. -/
lemma upsert_keys_nodup {V : Type} (m : List (String × V)) (k : String)
    (init : V) (f : V → V) (h : (m.map Prod.fst).Nodup) :
    ((upsert k init f m).map Prod.fst).Nodup := by
  rw [upsert_keys]
  by_cases hmem : k ∈ m.map Prod.fst
  · simpa [hmem] using h
  · simp [hmem, List.nodup_append, h]

/-- An upsert preserves the invariant that every binding's value carries
its own key (computed by `g`), provided the initial value does and the
update function does not change it. -/
lemma upsert_keyinv {V : Type} (g : V → String) (m : List (String × V))
    (k : String) (init : V) (f : V → V)
    (hm : ∀ e ∈ m, g e.2 = e.1) (hinit : g init = k)
    (hf : ∀ v, g (f v) = g v) :
    ∀ e ∈ upsert k init f m, g e.2 = e.1 := by
  induction m with
  | nil =>
    intro x hx
    simp only [upsert] at hx
    rcases List.mem_singleton.mp hx with h1
    subst h1
    simpa [hf] using hinit
  | cons e t ih =>
    intro x hx
    by_cases he : e.1 = k
    · simp only [upsert, he, if_true] at hx
      rcases List.mem_cons.mp hx with h1 | h1
      · subst h1
        simpa [hf] using (hm e (List.mem_cons_self e t)).trans he
      · exact hm x (List.mem_cons_of_mem _ h1)
    · simp only [upsert, he, if_false] at hx
      rcases List.mem_cons.mp hx with h1 | h1
      · subst h1
        exact hm e (List.mem_cons_self e t)
      · exact ih (fun y hy => hm y (List.mem_cons_of_mem _ hy)) x h1

/-- The member loop keeps the play-count map's keys duplicate-free and
every stored member's `"name-server"` key equal to its map key. -/
lemma memberFold_counts_invariant (rating : ℚ) (isTimed : Bool)
    (members : List RunMember) :
    ∀ st : List (String × PlayedMember) × List (String × GroupStat),
      (st.1.map Prod.fst).Nodup → (∀ e ∈ st.1, mkey e.2 = e.1) →
      (((members.foldl (memberStep rating isTimed) st).1.map Prod.fst).Nodup ∧
        ∀ e ∈ (members.foldl (memberStep rating isTimed) st).1,
          mkey e.2 = e.1) := by
  induction members with
  | nil => exact fun st h1 h2 => ⟨h1, h2⟩
  | cons mem t ih =>
    intro st h1 h2
    rw [List.foldl_cons]
    exact ih _ (upsert_keys_nodup _ _ _ _ h1)
      (upsert_keyinv mkey _ _ _ _ h2 rfl fun v => rfl)

/-- One run preserves the play-count map invariant. -/
lemma processRun_counts_invariant (acc : CharAcc) (run : Run)
    (h1 : (acc.roleStats.1.map Prod.fst).Nodup)
    (h2 : ∀ e ∈ acc.roleStats.1, mkey e.2 = e.1) :
    (((processRun acc run).roleStats.1.map Prod.fst).Nodup ∧
      ∀ e ∈ (processRun acc run).roleStats.1, mkey e.2 = e.1) := by
  have hr : (processRun acc run).roleStats =
      (run.members.getD []).foldl
        (memberStep (jsOrQ run.rating 0) run.is_completed_within_time)
        acc.roleStats := rfl
  rw [hr]
  exact memberFold_counts_invariant _ _ _ _ h1 h2

/-- The whole run loop preserves the play-count map invariant. -/
lemma foldl_processRun_counts_invariant (rs : List Run) :
    ∀ acc : CharAcc,
      (acc.roleStats.1.map Prod.fst).Nodup →
      (∀ e ∈ acc.roleStats.1, mkey e.2 = e.1) →
      (((rs.foldl processRun acc).roleStats.1.map Prod.fst).Nodup ∧
        ∀ e ∈ (rs.foldl processRun acc).roleStats.1, mkey e.2 = e.1) := by
  induction rs with
  | nil => exact fun acc h1 h2 => ⟨h1, h2⟩
  | cons r t ih =>
    intro acc h1 h2
    rw [List.foldl_cons]
    have h := processRun_counts_invariant acc r h1 h2
    exact ih _ h.1 h.2

/-- The `"name-server"` keys of a character's `topPlayedMembers` are
pairwise distinct. -/
lemma nodup_mkey_topPlayedMembers (c : Character) :
    ((processCharacterSeasonalStats c).topPlayedMembers.map mkey).Nodup := by
  match hcs : c.currentSeason with
  | none => simp [processCharacterSeasonalStats, hcs, emptySeasonalStats]
  | some s =>
    match hb : s.best_runs with
    | none => simp [processCharacterSeasonalStats, hcs, hb, emptySeasonalStats]
    | some rs =>
      have htop : (processCharacterSeasonalStats c).topPlayedMembers =
          (List.insertionSort descByCount
            ((rs.foldl processRun ⟨0, 0, 0, 0, 0, [], [], ([], [])⟩).roleStats.1.map
              (fun e => e.2))).take 10 := by
        simp [processCharacterSeasonalStats, hcs, hb]
      have hinv := foldl_processRun_counts_invariant rs
        ⟨0, 0, 0, 0, 0, [], [], ([], [])⟩ (by simp) (by simp)
      set counts :=
        (rs.foldl processRun ⟨0, 0, 0, 0, 0, [], [], ([], [])⟩).roleStats.1
      have hvals : (counts.map (fun e => e.2)).map mkey = counts.map Prod.fst := by
        rw [List.map_map]
        exact List.map_congr_left fun e he => hinv.2 e he
      have hperm : List.Perm
          ((List.insertionSort descByCount (counts.map (fun e => e.2))).map mkey)
          ((counts.map (fun e => e.2)).map mkey) :=
        (List.perm_insertionSort descByCount _).map mkey
      have hsorted_nodup :
          ((List.insertionSort descByCount (counts.map (fun e => e.2))).map mkey).Nodup :=
        hperm.nodup_iff.mpr (by rw [hvals]; exact hinv.1)
      rw [htop, List.map_take]
      exact List.Nodup.sublist (List.take_sublist 10 _) hsorted_nodup

/-- C8: (i) each top played member M of a qualifying character C gets M's
count added to the `memberNetworks` entry at M's `"name-server"` key, and
C's key inserted into that entry's `playedWith` set; (ii) all other keys —
in particular C's own, absent from M's side — are untouched, so the edge is
recorded on M's side only; (iii) the guild fold applies exactly this merge
with C's key for every qualifying character; (iv) every finalized
`memberNetworks` entry has `playedWithCount` equal to the length of its
materialized `playedWith` list; (v) the `"name-server"` keys of any
character's `topPlayedMembers` are pairwise distinct, so (i)'s no-duplicate
hypothesis holds for all actual inputs. -/
theorem memberNetworks_accumulation :
    (∀ (mns : List (String × MemberNetAcc)) (charKey : String)
        (topPlayed : List PlayedMember) (m : PlayedMember),
        (topPlayed.map mkey).Nodup → m ∈ topPlayed →
        getVal (trackMemberNetworks mns charKey topPlayed) (mkey m) =
          some
            { (getVal mns (mkey m)).getD ⟨m.name, m.server, m.spec, 0, []⟩ with
              totalRuns :=
                ((getVal mns (mkey m)).getD
                  ⟨m.name, m.server, m.spec, 0, []⟩).totalRuns + m.count
              playedWith :=
                setAdd
                  ((getVal mns (mkey m)).getD
                    ⟨m.name, m.server, m.spec, 0, []⟩).playedWith
                  charKey }) ∧
    (∀ (mns : List (String × MemberNetAcc)) (charKey : String)
        (topPlayed : List PlayedMember) (k : String),
        k ∉ topPlayed.map mkey →
        getVal (trackMemberNetworks mns charKey topPlayed) k = getVal mns k) ∧
    (∀ (acc : GuildAcc) (c : Character),
        0 < (processCharacterSeasonalStats c).totalRuns →
        (guildStep acc c).memberNets =
          trackMemberNetworks acc.memberNets (c.name ++ "-" ++ c.server)
            (processCharacterSeasonalStats c).topPlayedMembers) ∧
    (∀ (characters : List Character) (now : ℕ) (k : String)
        (e : MemberNetEntry),
        (k, e) ∈ (processGuildSeasonalStats characters now).memberNetworks →
        e.playedWithCount = e.playedWith.length) ∧
    (∀ c : Character,
        ((processCharacterSeasonalStats c).topPlayedMembers.map mkey).Nodup) := by
  refine ⟨fun mns ck tp m hnd hm => trackMemberNetworks_played mns ck tp hnd m hm,
    fun mns ck tp k hk => trackMemberNetworks_not_played mns ck tp k hk,
    fun acc c h => by simp [guildStep, h],
    fun characters now k e hmem => ?_,
    fun c => nodup_mkey_topPlayedMembers c⟩
  simp only [processGuildSeasonalStats, List.mem_map] at hmem
  obtain ⟨a, ha, heq⟩ := hmem
  obtain ⟨-, rfl⟩ := Prod.mk.injEq .. ▸ heq
  rfl

/-- A party member appearing in `sampleCharNet`'s single run. -/
def sampleMember : RunMember := ⟨some "Sp", some "M", some "T"⟩

/-- One run played together with `sampleMember`. -/
def sampleRunWithMember : Run :=
  { keystone_level := 7, is_completed_within_time := true, rating := some 10,
    duration := some 1, dungeonName := some "AK", keystone_affixes := none,
    members := some [sampleMember] }

/-- A character whose only run includes `sampleMember` in the party. -/
def sampleCharNet : Character :=
  { name := "A", server := "S", metaSpec := none, metaClass := none,
    mythicPlusScore := some 10, rawMplusRating := none,
    currentSeason := some ⟨some [sampleRunWithMember]⟩ }

/-- Witness for C8: one member with count 3 merged into an empty network
gains the character's key and the count; the character's own key stays
absent; the guild fold on a one-character roster uses this merge; the
finalized entry's `playedWithCount` equals its list length. -/
theorem memberNetworks_accumulation_witness :
    getVal (trackMemberNetworks [] "C-S" [⟨"M", "T", "Sp", 3⟩]) "M-T" =
      some ⟨"M", "T", "Sp", 3, ["C-S"]⟩ ∧
    getVal (trackMemberNetworks [] "C-S" [⟨"M", "T", "Sp", 3⟩]) "C-S" = none ∧
    (guildStep ⟨0, 0, 0, 0, 0, 0, [], [], [], [], []⟩ sampleCharNet).memberNets =
      trackMemberNetworks [] ("A" ++ "-" ++ "S")
        (processCharacterSeasonalStats sampleCharNet).topPlayedMembers ∧
    (⟨"M", "T", "Sp", 1, 1, ["A-S"]⟩ : MemberNetEntry).playedWithCount =
      (⟨"M", "T", "Sp", 1, 1, ["A-S"]⟩ : MemberNetEntry).playedWith.length ∧
    ((processCharacterSeasonalStats sampleCharNet).topPlayedMembers.map
      mkey).Nodup :=
  ⟨((memberNetworks_accumulation.1 [] "C-S" [⟨"M", "T", "Sp", 3⟩]
        ⟨"M", "T", "Sp", 3⟩ (by decide) (by decide)).trans (by decide)),
    memberNetworks_accumulation.2.1 [] "C-S" [⟨"M", "T", "Sp", 3⟩] "C-S"
      (by decide),
    memberNetworks_accumulation.2.2.1 ⟨0, 0, 0, 0, 0, 0, [], [], [], [], []⟩
      sampleCharNet (by decide),
    memberNetworks_accumulation.2.2.2.1 [sampleCharNet] 0 "M-T"
      ⟨"M", "T", "Sp", 1, 1, ["A-S"]⟩ (by decide),
    memberNetworks_accumulation.2.2.2.2 sampleCharNet⟩

end SeasonalStats
